import Mathlib

/-!
Verification development for the VGCN infrastructure reconciler.

The definitions below are a shallow embedding of the Python sources:

* check_conflicts.py   : capacity validator over the resource document;
* htcondor_migration.py: splitter allocating a fraction of the resources
  to a secondary HTCondor cluster;
* synchronize.py       : reconciler (bucketing, increments, removals,
  replacements, apply loop), the condor_active output parser, and the
  graceful-termination control flow.

Modelling conventions:

* Python ints are Int, the splitter fraction (a Python float fed with
  values such as 0.3) is ℚ, calendar dates are Int day numbers ordered
  like dates;
* Python dicts are association lists in insertion order with unique
  keys; dictGet / dictSet / dictDel / dictUnion mirror lookup, in-place
  update (append when the key is new), del and the dict | operator
  (right operand wins, left order first);
* raising an exception is returning Except.error; PyErr names the
  exception class that the interpreter would raise;
* I/O boundaries (OpenStack, SSH) are abstracted: the cloud listing is
  an explicit List of observed servers, create and delete calls become
  CloudAction values in the order they are issued, and remote command output
  is the stdout string handed to the parser.
-/

deriving instance DecidableEq for Except

/-- Exception classes that the embedded code can raise. -/
inductive PyErr where
  | valueError
  | keyError
  | typeError
  | assertionError
  | condorShutdownError
  deriving DecidableEq, Repr

/-! ### Python string primitives (on List Char, structural recursion) -/

/-- Whitespace characters stripped by the Python str.strip method. -/
def isSpaceChar (c : Char) : Bool :=
  c = ' ' || c = '\t' || c = '\n' || c = '\r' || c = '\x0b' || c = '\x0c'

/-- Python str.strip: remove leading and trailing whitespace. -/
def pyStrip (l : List Char) : List Char :=
  ((l.dropWhile isSpaceChar).reverse.dropWhile isSpaceChar).reverse

/-- Split a character list at every character satisfying p, keeping empty
pieces; mirrors the Python str.split method with an explicit separator
(one-character separators only, which is all the source uses). -/
def splitOnPred (p : Char → Bool) (l : List Char) : List (List Char) :=
  l.foldr
    (fun c acc =>
      if p c then [] :: acc
      else
        match acc with
        | h :: t => (c :: h) :: t
        | [] => [[c]])
    [[]]

/-- Python str.split with no argument: split on whitespace runs and drop
empty fields. -/
def pyFields (l : List Char) : List (List Char) :=
  (splitOnPred isSpaceChar l).filter (fun w => w ≠ [])

/-- Python str.startswith. -/
def pyStartsWith (pre s : String) : Bool :=
  pre.data.isPrefixOf s.data

/-- Python substring containment (the in operator on strings). -/
def listHasSub (sub : List Char) : List Char → Bool
  | [] => decide (sub = [])
  | c :: rest => sub.isPrefixOf (c :: rest) || listHasSub sub rest

/-- Python sub in s for strings. -/
def pyInStr (sub s : String) : Bool :=
  listHasSub sub.data s.data

/-! ### Data model: resource document -/

/-- One entry of the deployment mapping of resources.yaml.  Fields that a
group may omit are Options.  The count field is required by every code
path modelled here. -/
structure GroupConfig where
  count : Int
  flavor : String := ""
  image : Option String := none
  group : Option String := none
  start : Option Int := none
  «end» : Option Int := none
  secondary_htcondor_cluster : Bool := false
  deriving DecidableEq, Repr

/-- The resource document (resources.yaml), restricted to the keys the
embedded code reads. -/
structure Resources where
  images : List (String × String) := []
  nodes_inventory : List (String × Int) := []
  graceful : Bool := false
  deployment : List (String × GroupConfig)
  deriving DecidableEq, Repr

/-! ### Python dict semantics on association lists -/

/-- Python dict lookup: value of the first entry with the given key. -/
def dictGet {V : Type} : List (String × V) → String → Option V
  | [], _ => none
  | e :: rest, k => if e.1 = k then some e.2 else dictGet rest k

/-- Python key in dict. -/
def dictHas {V : Type} (d : List (String × V)) (k : String) : Bool :=
  (dictGet d k).isSome

/-- Python dict item assignment: replace in place when the key exists,
append otherwise. -/
def dictSet {V : Type} : List (String × V) → String → V → List (String × V)
  | [], k, v => [(k, v)]
  | e :: rest, k, v => if e.1 = k then (k, v) :: rest else e :: dictSet rest k v

/-- Python del d[k] (the embedded code only deletes keys that exist). -/
def dictDel {V : Type} (d : List (String × V)) (k : String) : List (String × V) :=
  d.filter (fun e => e.1 ≠ k)

/-- Python dict union a | b: keys of a first (values from b where shared),
then the keys only in b, in order. -/
def dictUnion {V : Type} (a b : List (String × V)) : List (String × V) :=
  (a.map (fun e =>
    match dictGet b e.1 with
    | some v => (e.1, v)
    | none => e))
  ++ b.filter (fun e => !(dictHas a e.1))

/-- Error-propagating elementwise map; mirrors a Python loop or
comprehension that may raise at its first failing element. -/
def mapE {A B : Type} (f : A → Except PyErr B) : List A → Except PyErr (List B)
  | [] => Except.ok []
  | a :: l =>
    match f a, mapE f l with
    | Except.error e, _ => Except.error e
    | Except.ok _, Except.error e => Except.error e
    | Except.ok b, Except.ok bs => Except.ok (b :: bs)

/-! ### Capacity validator (check_conflicts.py)

The pandas pipeline is embedded row by row: the deployment becomes a
list of rows, the max_count column is the inventory lookup per flavor
(KeyError when a flavor is missing from nodes_inventory), training rows
(node name starting with the string training-) are exploded over their
inclusive date range and grouped by (flavor, date) with summed counts,
the remaining rows are grouped by flavor, and a group is a conflict when
its summed count exceeds the max_count of its first row.  The pandas
groupby sorts its keys, which only affects the order of the conflict
message lines; the embedding keeps keys in first-appearance order and
the claims are stated through membership, which is order independent. -/

/-- One row of the validator dataframe. -/
structure CRow where
  node : String
  flavor : String
  count : Int
  max_count : Int
  startD : Option Int
  endD : Option Int
  deriving DecidableEq, Repr

/-- Build the dataframe rows: the max_count column applies the
nodes_inventory lookup to the flavor column and raises KeyError on a
missing flavor. -/
def buildRows (res : Resources) : Except PyErr (List CRow) :=
  mapE
    (fun e =>
      match dictGet res.nodes_inventory e.2.flavor with
      | none => Except.error PyErr.keyError
      | some m => Except.ok ⟨e.1, e.2.flavor, e.2.count, m, e.2.start, e.2.«end»⟩)
    res.deployment

/-- Inclusive day range, as produced by pandas date_range(start, end):
empty when the end precedes the start. -/
def dateRange (a b : Int) : List Int :=
  List.map (fun i : Nat => a + (i : Int)) (List.range (b + 1 - a).toNat)

/-- Explode one training row over its date range.  pandas fails on a
training row with a missing bound (the start or end column would be NaN
or absent); the embedding models that failure as an error. -/
def explodeRow (r : CRow) : Except PyErr (List (CRow × Int)) :=
  match r.startD, r.endD with
  | some a, some b => Except.ok ((dateRange a b).map (fun d => (r, d)))
  | _, _ => Except.error PyErr.valueError

/-- Key of an exploded row in the (flavor, date) groupby. -/
def keyOf (p : CRow × Int) : String × Int := (p.1.flavor, p.2)

/-- First-appearance deduplication (the distinct group keys). -/
def dedupAux {α : Type} [DecidableEq α] : List α → List α → List α
  | [], _ => []
  | x :: rest, seen =>
    if x ∈ seen then dedupAux rest seen else x :: dedupAux rest (x :: seen)

/-- Distinct elements of a list in first-appearance order. -/
def dedupFirst {α : Type} [DecidableEq α] (l : List α) : List α :=
  dedupAux l []

/-- Aggregated count of a (flavor, date) group. -/
def groupSum (ps : List (CRow × Int)) (k : String × Int) : Int :=
  ((ps.filter (fun p => keyOf p = k)).map (fun p => p.1.count)).sum

/-- Aggregated max_count of a (flavor, date) group (the first aggregation
of the groupby). -/
def groupFirstMax (ps : List (CRow × Int)) (k : String × Int) : Int :=
  ((ps.find? (fun p => keyOf p = k)).map (fun p => p.1.max_count)).getD 0

/-- The (flavor, date) pairs reported as conflicts by the training part of
the validator.  An empty training selection yields no dated conflicts,
matching the emptiness guard in the source. -/
def trainingConflicts (res : Resources) : Except PyErr (List (String × Int)) :=
  match buildRows res with
  | Except.error e => Except.error e
  | Except.ok rows =>
    match mapE explodeRow (rows.filter (fun r => pyStartsWith "training-" r.node)) with
    | Except.error e => Except.error e
    | Except.ok eps =>
      let ps := eps.flatten
      Except.ok ((dedupFirst (ps.map keyOf)).filter (fun k => groupFirstMax ps k < groupSum ps k))

/-- Aggregated count of an undated flavor group. -/
def flavorSum (rows : List CRow) (fl : String) : Int :=
  ((rows.filter (fun r => r.flavor = fl)).map (fun r => r.count)).sum

/-- Aggregated max_count of an undated flavor group. -/
def flavorFirstMax (rows : List CRow) (fl : String) : Int :=
  ((rows.find? (fun r => r.flavor = fl)).map (fun r => r.max_count)).getD 0

/-- The flavors reported as conflicts by the non-training part of the
validator. -/
def undatedConflicts (res : Resources) : Except PyErr (List String) :=
  match buildRows res with
  | Except.error e => Except.error e
  | Except.ok rows =>
    let nt := rows.filter (fun r => !(pyStartsWith "training-" r.node))
    Except.ok ((dedupFirst (nt.map (fun r => r.flavor))).filter
      (fun fl => flavorFirstMax nt fl < flavorSum nt fl))

/-- The validator.  It returns ok true when there is no conflict and
raises ValueError with the aggregated message otherwise; when the
deployment has no training group the concatenated frame has no date
column, so rendering any conflict row raises KeyError instead. -/
def check_conflicts (res : Resources) : Except PyErr Bool :=
  match buildRows res with
  | Except.error e => Except.error e
  | Except.ok rows =>
    match trainingConflicts res, undatedConflicts res with
    | Except.error e, _ => Except.error e
    | _, Except.error e => Except.error e
    | Except.ok tc, Except.ok uc =>
      if !(rows.any (fun r => pyStartsWith "training-" r.node)) && uc ≠ [] then
        Except.error PyErr.keyError
      else if tc ≠ [] ∨ uc ≠ [] then Except.error PyErr.valueError
      else Except.ok true

/-- Spec wording for the dated demand of the claims: does the window of a
group contain a given day (a group without both bounds never covers a
day through this predicate; the validator only dates training rows, and
those carry both bounds in every accepted document). -/
def rowCoversDay (c : GroupConfig) (d : Int) : Bool :=
  match c.start, c.«end» with
  | some a, some b => decide (a ≤ d ∧ d ≤ b)
  | _, _ => false

/-- Total count of training groups of a flavor whose window contains a
given day. -/
def datedTrainingSum (res : Resources) (fl : String) (d : Int) : Int :=
  ((res.deployment.filter (fun e =>
      pyStartsWith "training-" e.1 &&
        (decide (e.2.flavor = fl) && rowCoversDay e.2 d))).map
    (fun e => e.2.count)).sum

/-- Spec wording: total count of the undated (non-training) groups of a
flavor; the claims call this the base undated demand. -/
def baseUndatedSum (res : Resources) (fl : String) : Int :=
  ((res.deployment.filter (fun e =>
      !(pyStartsWith "training-" e.1) && e.2.flavor = fl)).map
    (fun e => e.2.count)).sum

/-- The row that buildRows produces for a deployment entry whose flavor
is present in the inventory. -/
def rowOf (res : Resources) (e : String × GroupConfig) : CRow :=
  ⟨e.1, e.2.flavor, e.2.count, (dictGet res.nodes_inventory e.2.flavor).getD 0,
    e.2.start, e.2.«end»⟩

/-- Window membership for a validator row. -/
def coversDay (r : CRow) (d : Int) : Bool :=
  match r.startD, r.endD with
  | some a, some b => decide (a ≤ d ∧ d ≤ b)
  | _, _ => false

/-- Contribution of a single exploded training row to the demand of a
(flavor, day) pair. -/
def rowContrib (fl : String) (d : Int) (r : CRow) : Int :=
  if decide (r.flavor = fl) && coversDay r d then r.count else 0

/-! ### Secondary-cluster splitter (htcondor_migration.py) -/

/-- Map HTCondor 8 images to the corresponding HTCondor 23 images. -/
def IMAGE_MAPPING : List (String × String) :=
  [("default", "htcondor-secondary"),
   ("gpu", "htcondor-secondary-gpu"),
   ("secure", "htcondor-secondary"),
   ("alma", "htcondor-secondary"),
   ("htcondor-secondary", "htcondor-secondary"),
   ("htcondor-secondary-gpu", "htcondor-secondary-gpu")]

/-- Key of the generated secondary group of a group. -/
def secondaryName (g : String) : String := g ++ "-htcondor-secondary"

/-- Training classification in the splitter: the group identifier starts
with the string training, or the optional group field contains it. -/
def isTrainingGroup (g : String) (c : GroupConfig) : Bool :=
  pyStartsWith "training" g || pyInStr "training" (c.group.getD "")

/-- count_primary of the splitter loop. -/
def count_primary_of (f : ℚ) (n : Int) : Int := ⌈(n : ℚ) * (1 - f)⌉

/-- count_secondary of the splitter loop. -/
def count_secondary_of (f : ℚ) (g : String) (c : GroupConfig) : Int :=
  if isTrainingGroup g c then c.count - count_primary_of f c.count
  else ⌈(c.count : ℚ) * f⌉

/-- One iteration of the allocate_resources loop on the pair of the
primary and secondary dicts: the primary entry is updated with
count_primary or deleted, and when count_secondary is positive a
secondary entry is appended, its image substituted through IMAGE_MAPPING
(an unknown image alias raises KeyError). -/
def allocateStep (f : ℚ) (g : String) (c : GroupConfig)
    (primaryD secondaryD : List (String × GroupConfig)) :
    Except PyErr (List (String × GroupConfig) × List (String × GroupConfig)) :=
  let cp := count_primary_of f c.count
  let cs := count_secondary_of f g c
  let primaryD' :=
    if 0 < cp then dictSet primaryD g { c with count := cp }
    else dictDel primaryD g
  if 0 < cs then
    match dictGet IMAGE_MAPPING (c.image.getD "default") with
    | none => Except.error PyErr.keyError
    | some img =>
      Except.ok (primaryD',
        dictSet secondaryD (secondaryName g)
          { c with count := cs, image := some img,
                   secondary_htcondor_cluster := true })
  else Except.ok (primaryD', secondaryD)

/-- The loop of allocate_resources over the deployment items; the primary
dict starts as a copy of the deployment and the secondary dict starts
empty. -/
def allocateLoop (f : ℚ) :
    List (String × GroupConfig) → List (String × GroupConfig) →
    List (String × GroupConfig) →
    Except PyErr (List (String × GroupConfig) × List (String × GroupConfig))
  | [], primaryD, secondaryD => Except.ok (primaryD, secondaryD)
  | (g, c) :: rest, primaryD, secondaryD =>
    match allocateStep f g c primaryD secondaryD with
    | Except.error e => Except.error e
    | Except.ok (primaryD', secondaryD') => allocateLoop f rest primaryD' secondaryD'

/-- The final ordering merge of allocate_resources over the modified
deployment (the union of the secondary and primary dicts): it prepends
the upload, interactive and remaining non-training entries and then lets
the modified deployment and finally the original deployment override
everything; each of its comprehensions reads the group key of every
entry, so a single entry without one raises KeyError. -/
def allocateMerge (res : Resources)
    (primaryD secondaryD : List (String × GroupConfig)) : Except PyErr Resources :=
  if (dictUnion secondaryD primaryD).any (fun e => e.2.group.isNone) then
    Except.error PyErr.keyError
  else
    Except.ok { res with deployment := (dictUnion (dictUnion (dictUnion (dictUnion
        ((dictUnion secondaryD primaryD).filter
          (fun e => e.2.group = some "upload" && decide (0 < e.2.count)))
        ((dictUnion secondaryD primaryD).filter
          (fun e => e.2.group = some "interactive" && decide (0 < e.2.count))))
        ((dictUnion secondaryD primaryD).filter
          (fun e => !(pyInStr "training" (e.2.group.getD "")) && decide (0 < e.2.count))))
        (dictUnion secondaryD primaryD)) res.deployment) }

/-- allocate_resources of htcondor_migration.py: range check, early
return at fraction zero, the loop over the deployment items, and the
final ordering merge. -/
def allocate_resources (res : Resources) (f : ℚ) : Except PyErr Resources :=
  if ¬(0 ≤ f ∧ f ≤ 1) then Except.error PyErr.valueError
  else if f ≤ 0 then Except.ok res
  else
    match allocateLoop f res.deployment res.deployment [] with
    | Except.error e => Except.error e
    | Except.ok (primaryD, secondaryD) => allocateMerge res primaryD secondaryD

/-- Count of a group in the document emitted by the splitter (none when
the call fails or the group is absent). -/
def emittedCount (res : Resources) (f : ℚ) (g : String) : Option Int :=
  match allocate_resources res f with
  | Except.ok out => (dictGet out.deployment g).map (fun c => c.count)
  | Except.error _ => none

/-! ### Reconciler (synchronize.py)

The OpenStack connection is abstracted into a CloudEnv (UUID test and
image-by-name lookup) plus an explicit listing of observed servers; the
apply phase records the create and delete calls it would issue, in
order, as CloudAction values.  Logging has no semantic effect and is not
modelled.  The graceful or brutal flavor of remove_server tears the same
server down either way and is folded into a single remove action. -/

/-- A server as observed in the cloud listing; image is the image id,
none for servers booted from a volume. -/
structure ObservedServer where
  name : String
  status : String := "ACTIVE"
  image : Option String := none
  deriving DecidableEq, Repr

/-- Cloud-dependent helpers of the reconciler: the UUID well-formedness
test and the image-by-name lookup (none when find_image returns None,
which the source then subscripts, raising TypeError). -/
structure CloudEnv where
  isUuid : String → Bool
  findImage : String → Option String

/-- compute_increment of synchronize.py; today is passed explicitly
instead of being read from the clock. -/
def compute_increment (c : GroupConfig) (status : Int) (today : Int) : Int :=
  if c.start.getD today ≤ today ∧ today ≤ c.«end».getD today then
    c.count - status
  else -status

/-- The bucketing predicate used by synchronize_infrastructure: the
server name starts with the concatenation of the namespace marker and
the group identifier, with no trailing separator. -/
def serverInGroup (g : String) (s : ObservedServer) : Bool :=
  pyStartsWith ("vgcnbwc-" ++ g) s.name

/-- servers_by_group of synchronize_infrastructure. -/
def servers_by_group (res : Resources) (servers : List ObservedServer) :
    List (String × List ObservedServer) :=
  res.deployment.map (fun e => (e.1, servers.filter (serverInGroup e.1)))

/-- Image resolution for a group: images alias lookup (KeyError on a
missing alias), used as is when it is a UUID and resolved through the
cloud otherwise. -/
def resolveImageId (env : CloudEnv) (res : Resources) (c : GroupConfig) :
    Except PyErr String :=
  match dictGet res.images (c.image.getD "default") with
  | none => Except.error PyErr.keyError
  | some img =>
    if env.isUuid img then Except.ok img
    else
      match env.findImage img with
      | some i => Except.ok i
      | none => Except.error PyErr.typeError

/-- filter_incorrect_images of synchronize.py: keep the servers whose
image id is known (volume-backed servers are exempt) and differs from
the resolved image of the group. -/
def filter_incorrect_images (servers : List ObservedServer) (res : Resources)
    (c : GroupConfig) (env : CloudEnv) : Except PyErr (List ObservedServer) :=
  match resolveImageId env res c with
  | Except.error e => Except.error e
  | Except.ok img =>
    Except.ok (servers.filter (fun s => s.image.isSome && decide (s.image ≠ some img)))

/-- The removals mapping of synchronize_infrastructure: per group, the
first abs(increment) observed servers in listing order. -/
def removals_map (res : Resources) (servers : List ObservedServer) (today : Int) :
    List (String × List ObservedServer) :=
  res.deployment.map (fun e =>
    let observed := servers.filter (serverInGroup e.1)
    (e.1, observed.take (compute_increment e.2 observed.length today).natAbs))

/-- Per-group plan entry: increment, removal list, replacement list. -/
structure GroupPlan where
  group : String
  increment : Int
  removals : List ObservedServer
  replacements : List ObservedServer
  deriving DecidableEq, Repr

/-- The planning phase of synchronize_infrastructure (increments,
removals and replacements dict comprehensions); image resolution errors
surface here, before any change is applied. -/
def groupPlans (res : Resources) (servers : List ObservedServer) (env : CloudEnv)
    (today : Int) : Except PyErr (List GroupPlan) :=
  mapE
    (fun e =>
      let observed := servers.filter (serverInGroup e.1)
      let inc := compute_increment e.2 observed.length today
      match filter_incorrect_images (observed.drop inc.natAbs) res e.2 env with
      | Except.error er => Except.error er
      | Except.ok reps => Except.ok ⟨e.1, inc, observed.take inc.natAbs, reps⟩)
    res.deployment

/-- Left zero padded four digit rendering of the counter. -/
def pad4 (i : Nat) : String :=
  let s := toString i
  String.mk (List.replicate (4 - s.length) '0') ++ s

/-- The search loop of unique_name, counting up from 0000 through 9999
and stopping at the first name that is not taken. -/
def uniqueNameFrom (pre : String) (existing : List String) : Nat → Nat → Option String
  | 0, _ => none
  | Nat.succ fuel, i =>
    let n := pre ++ "-" ++ pad4 i
    if existing.contains n then uniqueNameFrom pre existing fuel (i + 1) else some n

/-- unique_name of synchronize.py; none models the ValueError raised when
all ten thousand candidate names are taken. -/
def unique_name (pre : String) (existing : List String) : Option String :=
  uniqueNameFrom pre existing 10000 0

/-- A cloud mutation issued by the apply phase. -/
inductive CloudAction where
  | createSrv (name : String) (group : String)
  | removeSrv (name : String)
  deriving DecidableEq, Repr

/-- The creation loop of the apply phase for one group: reserve a unique
name, record the create call, and keep going; name exhaustion raises
ValueError after the earlier creations already happened. -/
def createLoop (g : String) : Nat → List String →
    List CloudAction × List String × Option PyErr
  | 0, names => ([], names, none)
  | Nat.succ k, names =>
    match unique_name ("vgcnbwc-" ++ g) names with
    | none => ([], names, some PyErr.valueError)
    | some n =>
      let r := createLoop g k (n :: names)
      (CloudAction.createSrv n g :: r.1, r.2.1, r.2.2)

/-- The add-or-remove loop of the apply phase over the groups in document
order; an exception stops the loop, keeping the actions already issued. -/
def applyGroups : List GroupPlan → List String →
    List CloudAction × List String × Option PyErr
  | [], names => ([], names, none)
  | p :: rest, names =>
    if 0 < p.increment then
      let r := createLoop p.group p.increment.toNat names
      match r.2.2 with
      | some e => (r.1, r.2.1, some e)
      | none =>
        let r2 := applyGroups rest r.2.1
        (r.1 ++ r2.1, r2.2.1, r2.2.2)
    else if p.increment < 0 then
      let acts := p.removals.map (fun s => CloudAction.removeSrv s.name)
      let names' := p.removals.foldl (fun ns s => ns.erase s.name) names
      let r2 := applyGroups rest names'
      (acts ++ r2.1, r2.2.1, r2.2.2)
    else
      let r2 := applyGroups rest names
      (r2.1, r2.2.1, r2.2.2)

/-- The replacement loop of the apply phase: tear down every flagged
server and create a new one bearing the same name. -/
def replaceActions (plans : List GroupPlan) : List CloudAction :=
  plans.foldr
    (fun p acc =>
      (p.replacements.foldr
        (fun s acc2 => CloudAction.removeSrv s.name :: CloudAction.createSrv s.name p.group :: acc2)
        acc))
    []

/-- Result of one reconciler invocation: the cloud mutations issued, in
order, and the exception that escaped, if any. -/
structure SyncOutcome where
  actions : List CloudAction
  err : Option PyErr
  deriving DecidableEq, Repr

/-- synchronize_infrastructure of synchronize.py over an explicit cloud
listing.  Note that it never consults the capacity validator. -/
def synchronize_infrastructure (res : Resources) (servers : List ObservedServer)
    (env : CloudEnv) (today : Int) (dry_run : Bool) : SyncOutcome :=
  match groupPlans res servers env today with
  | Except.error e => ⟨[], some e⟩
  | Except.ok plans =>
    if dry_run then ⟨[], none⟩
    else
      let st := applyGroups plans (servers.map (fun s => s.name))
      match st.2.2 with
      | some e => ⟨st.1, some e⟩
      | none => ⟨st.1 ++ replaceActions plans, none⟩

/-! ### HTCondor status parsing (condor_active) -/

/-- The lines considered by condor_active: the stdout of the grep-piped
condor_status command, stripped, then split on newlines (splitting the
empty string yields one empty line, as in Python). -/
def condorLines (stdout : String) : List (List Char) :=
  splitOnPred (fun c => c = '\n') (pyStrip stdout.data)

/-- condor_active of synchronize.py, as a function of the stdout of the
remote command (taken from the exception when the command fails, which
yields the same parse).  The list comprehension extracts the fifth
whitespace-delimited field of every line inside one try block, so a
single line with fewer than five fields empties the whole list through
IndexError; the result is whether more than one entry survived. -/
def condor_active (stdout : String) : Bool :=
  decide (1 <
    (if (condorLines stdout).all (fun x => 4 < (pyFields x).length) then
      (condorLines stdout).map (fun x => (pyFields x).getD 4 [])
    else []).length)

/-- Spec wording of the claims: the number of non-empty slot lines in the
stripped output. -/
def slotLineCount (stdout : String) : Nat :=
  ((condorLines stdout).filter (fun l => l ≠ [])).length

/-! ### Graceful termination (gracefully_terminate)

The function builds a multiprocessing Process around the Condor shutdown
and calls its run method, which executes the target inline in the parent
process and never starts a child; join and exitcode are therefore the
unstarted-process variants.  The Condor shutdown itself is abstracted
into its two observable outcomes: the drain completed, or it stayed
active past the timeout and condor_graceful_shutdown raised its
CondorShutdownException. -/

/-- Observable outcome of condor_graceful_shutdown. -/
inductive ShutdownOutcome where
  | drained
  | timedOut
  deriving DecidableEq, Repr

/-- State of a multiprocessing Process object. -/
structure PyProcess where
  started : Bool
  exit : Option Int
  deriving DecidableEq, Repr

/-- Process.join: joining a process that was never started raises
AssertionError (can only join a started process). -/
def pyProcessJoin (p : PyProcess) : Except PyErr Unit :=
  if p.started then Except.ok () else Except.error PyErr.assertionError

/-- Process.exitcode: None until the process has been started. -/
def pyProcessExitcode (p : PyProcess) : Option Int :=
  if p.started then p.exit else none

/-- Process.run executes the target inline: the shutdown outcome either
returns or raises CondorShutdownException into the caller.  The process
state is unchanged (run does not start the process). -/
def pyProcessRun (outcome : ShutdownOutcome) : Except PyErr Unit :=
  match outcome with
  | ShutdownOutcome.drained => Except.ok ()
  | ShutdownOutcome.timedOut => Except.error PyErr.condorShutdownError

/-- What gracefully_terminate did: whether delete_and_wait was reached
and which exception escaped, if any. -/
structure TermResult where
  deleted : Bool
  raised : Option PyErr
  deriving DecidableEq, Repr

/-- gracefully_terminate of synchronize.py as a function of the server
status and of the Condor shutdown outcome. -/
def gracefully_terminate (status : String) (outcome : ShutdownOutcome) : TermResult :=
  if status = "ACTIVE" then
    let p : PyProcess := { started := false, exit := none }
    match pyProcessRun outcome with
    | Except.error e => { deleted := false, raised := some e }
    | Except.ok _ =>
      match pyProcessJoin p with
      | Except.error e => { deleted := false, raised := some e }
      | Except.ok _ =>
        match pyProcessExitcode p with
        | none => { deleted := false, raised := some PyErr.condorShutdownError }
        | some _ => { deleted := true, raised := none }
  else { deleted := true, raised := none }

/-! ### Concrete documents and inputs used by the theorems

Dates are day numbers; in the S3 document the window 2025-01-10 through
2025-01-12 is written as the days 10 through 12. -/

/-- The fraction one half, kept behind a name so that rewriting with
facts about it stays syntactic. -/
def halfQ : ℚ := 1 / 2

/-- The S3 document: inventory of two m1.small, an undated compute group
of two and a training group of one on days 10 through 12. -/
def resS3 : Resources :=
  { nodes_inventory := [("m1.small", 2)],
    deployment :=
      [("compute", { count := 2, flavor := "m1.small" }),
       ("training-a", { count := 1, flavor := "m1.small", start := some 10, «end» := some 12 })] }

/-- A document with a dated capacity conflict: three training servers
requested on days 0 through 2 against an inventory of two. -/
def resConf : Resources :=
  { images := [("default", "img-1")],
    nodes_inventory := [("m1.small", 2)],
    deployment :=
      [("training-a", { count := 3, flavor := "m1.small", start := some 0, «end» := some 2 })] }

/-- A cloud in which every image value is taken as a UUID. -/
def envSimple : CloudEnv := ⟨fun _ => true, fun _ => none⟩

/-- A document with the group identifiers compute and compute2, the first
being a proper prefix of the second. -/
def resPair : Resources :=
  { images := [("default", "img-1")],
    deployment :=
      [("compute", { count := 1, flavor := "m1.small" }),
       ("compute2", { count := 1, flavor := "m1.small" })] }

/-- A live server of the compute2 group. -/
def srvPair : ObservedServer := { name := "vgcnbwc-compute2-0000", image := some "img-1" }

/-- The S2 document: five m1.small available, compute desired count
three. -/
def resS2 : Resources :=
  { images := [("default", "img-1")],
    nodes_inventory := [("m1.small", 5)],
    deployment := [("compute", { count := 3, flavor := "m1.small" })] }

/-- The four live compute servers of S2. -/
def srvS2 (i : Nat) : ObservedServer :=
  { name := "vgcnbwc-compute-000" ++ toString i, image := some "img-1" }

/-- The S2 listing in ascending name order. -/
def serversS2 : List ObservedServer := [srvS2 0, srvS2 1, srvS2 2, srvS2 3]

/-- The same four servers as listed by a cloud that returns the newest
server first. -/
def serversS2rev : List ObservedServer := [srvS2 3, srvS2 0, srvS2 1, srvS2 2]

/-- Lexicographic order on character lists by code point (the byte-based
order of the runtime String order, restricted to the ASCII names used
here). -/
def charListLe : List Char → List Char → Bool
  | [], _ => true
  | _ :: _, [] => false
  | c :: cs, d :: ds =>
    if c.toNat < d.toNat then true
    else if d.toNat < c.toNat then false
    else charListLe cs ds

/-- Ascending comparison of server names. -/
def nameLe (a b : String) : Bool := charListLe a.data b.data

/-- Insert a server into a name-sorted list. -/
def insertByName (s : ObservedServer) : List ObservedServer → List ObservedServer
  | [] => [s]
  | t :: rest => if nameLe s.name t.name then s :: t :: rest else t :: insertByName s rest

/-- Ascending insertion sort by server name (the order the claims
prescribe for removals). -/
def sortByName (l : List ObservedServer) : List ObservedServer :=
  l.foldr insertByName []

/-- A splitter document with one non-training and one training group,
both of count two and with the group key present. -/
def resC8 : Resources :=
  { deployment :=
      [("compute", { count := 2, flavor := "m1.small", group := some "compute" }),
       ("training-a", { count := 2, flavor := "m1.small", group := some "training" })] }

/-- A splitter document with a single training group of count two. -/
def resC8w : Resources :=
  { deployment :=
      [("training-a", { count := 2, flavor := "m1.small", group := some "training" })] }

/-- The training entry of resC8w. -/
def cfgC8w : GroupConfig :=
  { count := 2, flavor := "m1.small", group := some "training" }

/-- The document the splitter emits for resC8w at fraction one half: the
generated secondary group followed by the original entry, which the
final merge restored to its original count. -/
def outC8w : Resources :=
  { deployment :=
      [("training-a-htcondor-secondary",
        { count := 1, flavor := "m1.small", group := some "training",
          image := some "htcondor-secondary", secondary_htcondor_cluster := true }),
       ("training-a", cfgC8w)] }

/-- A splitter document whose only entry has count zero and no group
key. -/
def resC10 : Resources := { deployment := [("a", { count := 0 })] }

/-- A splitter document whose only entry has count one and no group
key. -/
def resC10w : Resources := { deployment := [("b", { count := 1 })] }

/-! ### Shared lemmas about the dict model -/

theorem dictGet_map_value {A V : Type} (F : String × A → V) (l : List (String × A))
    (k : String) :
    dictGet (l.map (fun e => (e.1, F e))) k = (dictGet l k).map (fun a => F (k, a)) := by
  induction l with
  | nil => rfl
  | cons e rest ih =>
    rcases e with ⟨ek, ev⟩
    by_cases hk : ek = k
    · subst hk
      simp [dictGet]
    · simp [dictGet, hk, ih]

theorem dictGet_mem {V : Type} {d : List (String × V)} {k : String} {v : V}
    (h : dictGet d k = some v) : (k, v) ∈ d := by
  induction d with
  | nil => simp [dictGet] at h
  | cons e rest ih =>
    rw [dictGet] at h
    by_cases hk : e.1 = k
    · rw [if_pos hk] at h
      injection h with h2
      subst h2
      subst hk
      exact List.mem_cons_self e rest
    · rw [if_neg hk] at h
      exact List.mem_cons_of_mem _ (ih h)

theorem dictGet_eq_some_of_mem_nodup {V : Type} {d : List (String × V)} {k : String}
    {v : V} (hmem : (k, v) ∈ d) (hnodup : (d.map Prod.fst).Nodup) :
    dictGet d k = some v := by
  induction d with
  | nil => simp at hmem
  | cons e rest ih =>
    rw [List.map_cons, List.nodup_cons] at hnodup
    rcases List.mem_cons.mp hmem with h | h
    · subst h
      simp [dictGet]
    · have hk : e.1 ≠ k := by
        intro hk
        exact hnodup.1 (hk ▸ List.mem_map_of_mem Prod.fst h)
      rw [dictGet, if_neg hk]
      exact ih h hnodup.2

theorem dictGet_none_not_key {V : Type} {d : List (String × V)} {k : String}
    (h : dictGet d k = none) : ∀ e ∈ d, e.1 ≠ k := by
  induction d with
  | nil => intro e he; simp at he
  | cons e rest ih =>
    rw [dictGet] at h
    by_cases hk : e.1 = k
    · rw [if_pos hk] at h
      cases h
    · rw [if_neg hk] at h
      intro x hx
      rcases List.mem_cons.mp hx with hx | hx
      · subst hx; exact hk
      · exact ih h x hx

theorem dictGet_append {V : Type} (a b : List (String × V)) (k : String) :
    dictGet (a ++ b) k =
      match dictGet a k with
      | some v => some v
      | none => dictGet b k := by
  induction a with
  | nil => rfl
  | cons e rest ih =>
    by_cases hk : e.1 = k
    · simp [dictGet, hk]
    · simp [dictGet, hk, ih]

theorem dictGet_filter_agree {V : Type} (p q : String × V → Bool)
    (l : List (String × V)) (k : String)
    (h : ∀ e : String × V, e.1 = k → p e = q e) :
    dictGet (l.filter p) k = dictGet (l.filter q) k := by
  induction l with
  | nil => rfl
  | cons e rest ih =>
    by_cases hk : e.1 = k
    · have := h e hk
      cases hpq : q e
      · simp [List.filter_cons, this, hpq, ih]
      · simp [List.filter_cons, this, hpq, dictGet, hk]
    · cases hp : p e <;> cases hq : q e <;>
        simp [List.filter_cons, hp, hq, dictGet, hk, ih]

theorem dictGet_union {V : Type} (a b : List (String × V)) (k : String) :
    dictGet (dictUnion a b) k =
      match dictGet b k with
      | some v => some v
      | none => dictGet a k := by
  induction a with
  | nil =>
    show dictGet ([] ++ b.filter fun e => !(dictHas ([] : List (String × V)) e.1)) k = _
    have : (b.filter fun e => !(dictHas ([] : List (String × V)) e.1)) = b := by
      apply List.filter_eq_self.mpr
      intro e _
      rfl
    rw [List.nil_append, this]
    cases dictGet b k <;> rfl
  | cons e rest ih =>
    have hfilter : ¬ e.1 = k →
        dictGet (b.filter fun x => !(dictHas (e :: rest) x.1)) k =
        dictGet (b.filter fun x => !(dictHas rest x.1)) k := by
      intro hk
      apply dictGet_filter_agree
      intro x hx
      have hhas : dictHas (e :: rest) x.1 = dictHas rest x.1 := by
        unfold dictHas
        rw [hx, dictGet, if_neg hk]
      rw [hhas]
    by_cases hk : e.1 = k
    · subst hk
      cases hb : dictGet b e.1 with
      | some v => simp [dictUnion, hb, dictGet]
      | none => simp [dictUnion, hb, dictGet]
    · cases hb : dictGet b e.1 with
      | some v =>
        simp only [dictUnion, List.map_cons, List.cons_append, hb] at ih ⊢
        rw [dictGet, if_neg hk, dictGet_append, hfilter hk, ← dictGet_append, ih,
          dictGet, if_neg hk]
      | none =>
        simp only [dictUnion, List.map_cons, List.cons_append, hb] at ih ⊢
        rw [dictGet, if_neg hk, dictGet_append, hfilter hk, ← dictGet_append, ih,
          dictGet, if_neg hk]

theorem dictGet_dictSet_self {V : Type} (d : List (String × V)) (k : String) (v : V) :
    dictGet (dictSet d k v) k = some v := by
  induction d with
  | nil => simp [dictSet, dictGet]
  | cons e rest ih =>
    by_cases hk : e.1 = k
    · simp [dictSet, hk, dictGet]
    · simp [dictSet, hk, dictGet, ih]

theorem dictGet_dictSet_ne {V : Type} (d : List (String × V)) (k' k : String) (v : V)
    (h : k' ≠ k) : dictGet (dictSet d k' v) k = dictGet d k := by
  induction d with
  | nil => simp [dictSet, dictGet, h]
  | cons e rest ih =>
    by_cases hk : e.1 = k'
    · have h2 : ¬ e.1 = k := fun hek => h (hk.symm.trans hek)
      rw [dictSet, if_pos hk, dictGet, if_neg h, dictGet, if_neg h2]
    · rw [dictSet, if_neg hk]
      by_cases hek : e.1 = k
      · rw [dictGet, if_pos hek, dictGet, if_pos hek]
      · rw [dictGet, if_neg hek, dictGet, if_neg hek, ih]

theorem dictGet_dictDel_ne {V : Type} (d : List (String × V)) (k' k : String)
    (h : k' ≠ k) : dictGet (dictDel d k') k = dictGet d k := by
  induction d with
  | nil => rfl
  | cons e rest ih =>
    by_cases hk : e.1 = k'
    · have hek : ¬ e.1 = k := fun h2 => h (hk.symm.trans h2)
      have hdrop : dictDel (e :: rest) k' = dictDel rest k' := by
        unfold dictDel
        rw [List.filter_cons, if_neg (by simp [hk])]
      rw [hdrop, ih, dictGet, if_neg hek]
    · have hkeep : dictDel (e :: rest) k' = e :: dictDel rest k' := by
        unfold dictDel
        rw [List.filter_cons, if_pos (by simp [hk])]
      rw [hkeep]
      by_cases hek : e.1 = k
      · rw [dictGet, if_pos hek, dictGet, if_pos hek]
      · rw [dictGet, if_neg hek, dictGet, if_neg hek, ih]

/-! ### Claim C4: compute_increment -/

/-- C4: for every group configuration and observed count k, if today lies
within the inclusive window given by start and end (a missing bound
defaulting to today), compute_increment returns count minus k, and
otherwise it returns minus k. -/
theorem compute_increment_correct (c : GroupConfig) (k today : Int) :
    (c.start.getD today ≤ today ∧ today ≤ c.«end».getD today →
      compute_increment c k today = c.count - k) ∧
    (¬(c.start.getD today ≤ today ∧ today ≤ c.«end».getD today) →
      compute_increment c k today = -k) := by
  constructor <;> intro h <;> simp [compute_increment, h]

theorem compute_increment_correct_witness :
    compute_increment { count := 6, start := some 0, «end» := some 2 } 4 1 = 6 - 4 ∧
    compute_increment { count := 6, start := some 0, «end» := some 2 } 4 5 = -4 :=
  ⟨(compute_increment_correct { count := 6, start := some 0, «end» := some 2 } 4 1).1
      (by decide),
   (compute_increment_correct { count := 6, start := some 0, «end» := some 2 } 4 5).2
      (by decide)⟩

/-! ### Claim C6: condor_active -/

/-- C6 counterexample: an output of two non-empty slot lines of four
fields each makes condor_active return false, although more than one
slot line is present; the claimed equivalence with the slot line count
fails because a single short line empties the parsed list through
IndexError. -/
theorem condor_active_counter :
    condor_active "slot1@h LINUX X86_64 Claimed\nslot1_1@h LINUX X86_64 Claimed" = false ∧
    1 < slotLineCount "slot1@h LINUX X86_64 Claimed\nslot1_1@h LINUX X86_64 Claimed" := by
  decide

/-- C6 amended: condor_active returns true exactly when the stripped
output splits into more than one newline-separated line and every such
line carries at least five whitespace-delimited fields; a single shorter
line makes the whole parse collapse to the empty list and the function
return false. -/
theorem condor_active_iff (s : String) :
    condor_active s =
      (decide (1 < (condorLines s).length) &&
        (condorLines s).all (fun x => 4 < (pyFields x).length)) := by
  unfold condor_active
  cases h : (condorLines s).all (fun x => 4 < (pyFields x).length)
  · simp [h]
  · simp [h]

/-! ### Claim C7: gracefully_terminate -/

/-- C7: the claim states that the cloud deletion is issued once the
Condor shutdown surfaces success or an explicit timeout.  The code
wraps the shutdown in a multiprocessing Process but calls run instead of
start, so for an ACTIVE server the success path dies joining a process
that was never started (and the exitcode of such a process would still
be None, triggering the timeout branch), and the timeout path propagates
the CondorShutdownException out of run; delete_and_wait is reached for
no ACTIVE server, only for servers in other states. -/
theorem gracefully_terminate_no_delete :
    gracefully_terminate "ACTIVE" ShutdownOutcome.drained =
      { deleted := false, raised := some PyErr.assertionError } ∧
    gracefully_terminate "ACTIVE" ShutdownOutcome.timedOut =
      { deleted := false, raised := some PyErr.condorShutdownError } ∧
    gracefully_terminate "ERROR" ShutdownOutcome.drained =
      { deleted := true, raised := none } := by
  decide

/-! ### Claim C9: splitter identity and range check -/

/-- C9: allocate_resources with fraction zero returns the input document
itself, and every fraction outside the closed unit interval raises
ValueError before any document is produced. -/
theorem allocate_resources_identity_and_range (res : Resources) :
    allocate_resources res 0 = Except.ok res ∧
    ∀ f : ℚ, f < 0 ∨ 1 < f → allocate_resources res f = Except.error PyErr.valueError := by
  constructor
  · simp [allocate_resources]
  · intro f hf
    have hout : ¬(0 ≤ f ∧ f ≤ 1) := by
      rcases hf with h | h
      · exact fun hc => absurd hc.1 (not_le.mpr h)
      · exact fun hc => absurd hc.2 (not_le.mpr h)
    simp [allocate_resources, hout]

theorem allocate_resources_identity_and_range_witness :
    allocate_resources { deployment := [] } 0 = Except.ok { deployment := [] } ∧
    allocate_resources { deployment := [] } 2 = Except.error PyErr.valueError :=
  ⟨(allocate_resources_identity_and_range { deployment := [] }).1,
   (allocate_resources_identity_and_range { deployment := [] }).2 2 (Or.inr (by norm_num))⟩

/-! ### Claim C3: bucketing -/

/-- C3 counterexample: the bucketing predicate has no trailing separator,
so the server vgcnbwc-compute2-0000 is assigned both to compute2 and to
the group compute, whose identifier is a proper prefix of compute2; the
claimed predicate with the trailing separator does not hold for the pair
(compute, vgcnbwc-compute2-0000), and the server lands in two groups at
once. -/
theorem bucketing_counter :
    dictGet (servers_by_group resPair [srvPair]) "compute" = some [srvPair] ∧
    dictGet (servers_by_group resPair [srvPair]) "compute2" = some [srvPair] ∧
    pyStartsWith ("vgcnbwc-" ++ "compute" ++ "-") srvPair.name = false ∧
    pyStartsWith "compute" "compute2" = true := by
  decide

/-- C3 amended: a server is assigned to the bucket of group g exactly
when its name starts with the concatenation of vgcnbwc- and g, with no
trailing separator; consequently, when one group identifier is a proper
prefix of another, a server of the longer group is also assigned to the
shorter one. -/
theorem bucketing_membership (res : Resources) (servers : List ObservedServer)
    (g : String) (gs : List ObservedServer)
    (h : dictGet (servers_by_group res servers) g = some gs) :
    ∀ s, s ∈ gs ↔ s ∈ servers ∧ pyStartsWith ("vgcnbwc-" ++ g) s.name = true := by
  intro s
  have hval :
      dictGet (servers_by_group res servers) g =
        (dictGet res.deployment g).map
          (fun a => (fun e : String × GroupConfig => servers.filter (serverInGroup e.1)) (g, a)) := by
    exact dictGet_map_value _ res.deployment g
  rw [hval] at h
  cases hdep : dictGet res.deployment g with
  | none => rw [hdep] at h; cases h
  | some c =>
    rw [hdep] at h
    injection h with h2
    subst h2
    constructor
    · intro hs
      have := List.mem_filter.mp hs
      exact ⟨this.1, this.2⟩
    · intro hs
      exact List.mem_filter.mpr ⟨hs.1, hs.2⟩

theorem bucketing_membership_witness :
    srvPair ∈ [srvPair] ↔
      srvPair ∈ [srvPair] ∧ pyStartsWith ("vgcnbwc-" ++ "compute") srvPair.name = true :=
  bucketing_membership resPair [srvPair] "compute" [srvPair] (by decide) srvPair

/-! ### Claim C5: removal selection -/

/-- C5 counterexample: with the S2 document and the same four live
servers listed newest first, the planner removes vgcnbwc-compute-0003,
the first server of the listing, while the claimed name-ascending rule
would remove vgcnbwc-compute-0000; no sort happens before truncation. -/
theorem removals_counter :
    dictGet (removals_map resS2 serversS2rev 0) "compute" = some [srvS2 3] ∧
    (sortByName (serversS2rev.filter (serverInGroup "compute"))).take 1 = [srvS2 0] ∧
    srvS2 3 ≠ srvS2 0 := by
  decide

/-- C5 amended: for a group with negative increment the removal list is
the first abs(increment) observed servers of the bucket in cloud listing
order (a sublist of the listing, no sorting applied); in the S2
situation, where the cloud happens to list the servers in ascending name
order, exactly vgcnbwc-compute-0000 is removed. -/
theorem removals_listing_order (res : Resources) (servers : List ObservedServer)
    (today : Int) (g : String) (c : GroupConfig) (rems : List ObservedServer)
    (hc : dictGet res.deployment g = some c)
    (h : dictGet (removals_map res servers today) g = some rems) :
    rems = (servers.filter (serverInGroup g)).take
        (compute_increment c (servers.filter (serverInGroup g)).length today).natAbs ∧
    List.Sublist rems servers ∧
    dictGet (removals_map resS2 serversS2 0) "compute" = some [srvS2 0] := by
  have hval :
      dictGet (removals_map res servers today) g =
        (dictGet res.deployment g).map
          (fun a =>
            (fun e : String × GroupConfig =>
              let observed := servers.filter (serverInGroup e.1)
              observed.take (compute_increment e.2 observed.length today).natAbs) (g, a)) := by
    exact dictGet_map_value _ res.deployment g
  rw [hval, hc] at h
  injection h with h2
  refine ⟨h2.symm, ?_, by decide⟩
  rw [← h2]
  exact List.Sublist.trans (List.take_sublist _ _) (List.filter_sublist _)

theorem removals_listing_order_witness :
    [srvS2 0] = (serversS2.filter (serverInGroup "compute")).take
        (compute_increment { count := 3, flavor := "m1.small" }
          (serversS2.filter (serverInGroup "compute")).length 0).natAbs ∧
    List.Sublist [srvS2 0] serversS2 ∧
    dictGet (removals_map resS2 serversS2 0) "compute" = some [srvS2 0] :=
  removals_listing_order resS2 serversS2 0 "compute"
    { count := 3, flavor := "m1.small" } [srvS2 0] (by decide) (by decide)

/-! ### Claim C2: the reconciler and the validator -/

/-- C2 counterexample: resConf has a capacity conflict (three training
servers against an inventory of two, which check_conflicts rejects with
ValueError), yet synchronize_infrastructure run on it issues cloud
mutations: the claim that no create or delete action is issued on a
conflicting document is false. -/
theorem sync_ignores_validator_counter :
    check_conflicts resConf = Except.error PyErr.valueError ∧
    ¬((synchronize_infrastructure resConf [] envSimple 1 false).actions = []) := by
  decide

/-- C2 amended: synchronize_infrastructure never invokes the capacity
validator; on the conflicting document resConf, which check_conflicts
rejects, it proceeds to list, bucket and apply, issuing three create
calls and finishing without any conflict error. -/
theorem sync_ignores_validator :
    check_conflicts resConf = Except.error PyErr.valueError ∧
    synchronize_infrastructure resConf [] envSimple 1 false =
      { actions := [CloudAction.createSrv "vgcnbwc-training-a-0000" "training-a",
                    CloudAction.createSrv "vgcnbwc-training-a-0001" "training-a",
                    CloudAction.createSrv "vgcnbwc-training-a-0002" "training-a"],
        err := none } := by
  decide

/-! ### Shared lemmas about the splitter loop -/

theorem dictGet_eq_none_of_forall {V : Type} {d : List (String × V)} {k : String}
    (h : ∀ e ∈ d, e.1 ≠ k) : dictGet d k = none := by
  induction d with
  | nil => rfl
  | cons e rest ih =>
    rw [dictGet, if_neg (h e (List.mem_cons_self e rest))]
    exact ih (fun x hx => h x (List.mem_cons_of_mem e hx))

theorem dictGet_dictDel_self {V : Type} (d : List (String × V)) (k : String) :
    dictGet (dictDel d k) k = none := by
  apply dictGet_eq_none_of_forall
  intro e he
  have := List.of_mem_filter he
  simpa using this

theorem dictGet_filter_none {V : Type} {d : List (String × V)} {k : String}
    (q : String × V → Bool) (h : dictGet d k = none) :
    dictGet (d.filter q) k = none := by
  apply dictGet_eq_none_of_forall
  intro e he
  exact dictGet_none_not_key h e (List.mem_of_mem_filter he)

theorem secondaryName_inj {a b : String} (h : secondaryName a = secondaryName b) :
    a = b := by
  unfold secondaryName at h
  have hd : a.data ++ "-htcondor-secondary".data = b.data ++ "-htcondor-secondary".data := by
    have h2 := congrArg String.data h
    simpa [String.data_append] using h2
  have hab : a.data = b.data := by
    exact List.append_cancel_right hd
  cases a
  cases b
  exact congrArg String.mk hab

theorem allocateStep_error {f : ℚ} {g : String} {c : GroupConfig}
    {p s : List (String × GroupConfig)} {e : PyErr}
    (h : allocateStep f g c p s = Except.error e) : e = PyErr.keyError := by
  simp only [allocateStep] at h
  by_cases hcs : 0 < count_secondary_of f g c
  · rw [if_pos hcs] at h
    cases himg : dictGet IMAGE_MAPPING (c.image.getD "default") with
    | none =>
      rw [himg] at h
      injection h with h2
      exact h2.symm
    | some img =>
      rw [himg] at h
      cases h
  · rw [if_neg hcs] at h
    cases h

theorem allocateStep_ok {f : ℚ} {g : String} {c : GroupConfig}
    {p s : List (String × GroupConfig)}
    {P : List (String × GroupConfig) × List (String × GroupConfig)}
    (h : allocateStep f g c p s = Except.ok P) :
    P.1 = (if 0 < count_primary_of f c.count then
            dictSet p g { c with count := count_primary_of f c.count }
          else dictDel p g) ∧
    ((0 < count_secondary_of f g c ∧
      ∃ img, dictGet IMAGE_MAPPING (c.image.getD "default") = some img ∧
        P.2 = dictSet s (secondaryName g)
          { c with count := count_secondary_of f g c, image := some img,
                   secondary_htcondor_cluster := true }) ∨
     (¬ 0 < count_secondary_of f g c ∧ P.2 = s)) := by
  simp only [allocateStep] at h
  by_cases hcs : 0 < count_secondary_of f g c
  · rw [if_pos hcs] at h
    cases himg : dictGet IMAGE_MAPPING (c.image.getD "default") with
    | none =>
      rw [himg] at h
      cases h
    | some img =>
      rw [himg] at h
      injection h with h2
      subst h2
      exact ⟨rfl, Or.inl ⟨hcs, img, rfl, rfl⟩⟩
  · rw [if_neg hcs] at h
    injection h with h2
    subst h2
    exact ⟨rfl, Or.inr ⟨hcs, rfl⟩⟩

theorem allocateLoop_error {f : ℚ} :
    ∀ (entries p s : List (String × GroupConfig)) (e : PyErr),
      allocateLoop f entries p s = Except.error e → e = PyErr.keyError := by
  intro entries
  induction entries with
  | nil => intro p s e h; cases h
  | cons e0 rest ih =>
    intro p s e h
    rcases e0 with ⟨g0, c0⟩
    rw [allocateLoop] at h
    cases hstep : allocateStep f g0 c0 p s with
    | error e2 =>
      rw [hstep] at h
      injection h with h2
      subst h2
      exact allocateStep_error hstep
    | ok P =>
      rcases P with ⟨p', s'⟩
      rw [hstep] at h
      exact ih p' s' e h

theorem allocateLoop_sec_stable {f : ℚ} {K : String} :
    ∀ (entries p s : List (String × GroupConfig))
      (PS : List (String × GroupConfig) × List (String × GroupConfig)),
      allocateLoop f entries p s = Except.ok PS →
      (∀ e ∈ entries, secondaryName e.1 ≠ K) →
      dictGet PS.2 K = dictGet s K := by
  intro entries
  induction entries with
  | nil =>
    intro p s PS h _
    injection h with h2
    subst h2
    rfl
  | cons e0 rest ih =>
    intro p s PS h hK
    rcases e0 with ⟨g0, c0⟩
    rw [allocateLoop] at h
    cases hstep : allocateStep f g0 c0 p s with
    | error e2 => rw [hstep] at h; cases h
    | ok P =>
      rcases P with ⟨p', s'⟩
      rw [hstep] at h
      have hrest := ih p' s' PS h (fun e he => hK e (List.mem_cons_of_mem _ he))
      rw [hrest]
      rcases (allocateStep_ok hstep).2 with ⟨_, img, _, hset⟩ | ⟨_, hset⟩
      · replace hset : s' = _ := hset
        rw [hset]
        exact dictGet_dictSet_ne _ _ _ _ (hK (g0, c0) (List.mem_cons_self _ _))
      · replace hset : s' = _ := hset
        rw [hset]

theorem allocateLoop_prim_stable {f : ℚ} {K : String} :
    ∀ (entries p s : List (String × GroupConfig))
      (PS : List (String × GroupConfig) × List (String × GroupConfig)),
      allocateLoop f entries p s = Except.ok PS →
      (∀ e ∈ entries, e.1 ≠ K) →
      dictGet PS.1 K = dictGet p K := by
  intro entries
  induction entries with
  | nil =>
    intro p s PS h _
    injection h with h2
    subst h2
    rfl
  | cons e0 rest ih =>
    intro p s PS h hK
    rcases e0 with ⟨g0, c0⟩
    rw [allocateLoop] at h
    cases hstep : allocateStep f g0 c0 p s with
    | error e2 => rw [hstep] at h; cases h
    | ok P =>
      rcases P with ⟨p', s'⟩
      rw [hstep] at h
      have hrest := ih p' s' PS h (fun e he => hK e (List.mem_cons_of_mem _ he))
      rw [hrest]
      have hg0K : g0 ≠ K := hK (g0, c0) (List.mem_cons_self _ _)
      have hp := (allocateStep_ok hstep).1
      replace hp : p' = _ := hp
      by_cases hcp : 0 < count_primary_of f c0.count
      · rw [if_pos hcp] at hp
        rw [hp]
        exact dictGet_dictSet_ne _ _ _ _ hg0K
      · rw [if_neg hcp] at hp
        rw [hp]
        exact dictGet_dictDel_ne _ _ _ hg0K

theorem allocateLoop_sec_get {f : ℚ} {g : String} {c : GroupConfig} :
    ∀ (entries p s : List (String × GroupConfig))
      (PS : List (String × GroupConfig) × List (String × GroupConfig)),
      allocateLoop f entries p s = Except.ok PS →
      (entries.map Prod.fst).Nodup →
      (g, c) ∈ entries →
      dictGet s (secondaryName g) = none →
      (if 0 < count_secondary_of f g c then
        ∃ img, dictGet IMAGE_MAPPING (c.image.getD "default") = some img ∧
          dictGet PS.2 (secondaryName g) =
            some { c with count := count_secondary_of f g c, image := some img,
                          secondary_htcondor_cluster := true }
      else dictGet PS.2 (secondaryName g) = none) := by
  intro entries
  induction entries with
  | nil => intro p s PS h hnd hmem hinit; cases hmem
  | cons e0 rest ih =>
    intro p s PS h hnd hmem hinit
    rcases e0 with ⟨g0, c0⟩
    rw [allocateLoop] at h
    cases hstep : allocateStep f g0 c0 p s with
    | error e2 => rw [hstep] at h; cases h
    | ok P =>
      rcases P with ⟨p', s'⟩
      rw [hstep] at h
      rw [List.map_cons, List.nodup_cons] at hnd
      rcases List.mem_cons.mp hmem with heq | hmem2
      · injection heq with hg0 hc0
        subst hg0
        subst hc0
        have hstable : dictGet PS.2 (secondaryName g) = dictGet s' (secondaryName g) := by
          apply allocateLoop_sec_stable rest p' s' PS h
          intro e he hKe
          have h1 : e.1 ∈ rest.map Prod.fst := List.mem_map_of_mem Prod.fst he
          rw [secondaryName_inj hKe] at h1
          exact hnd.1 h1
        rw [hstable]
        rcases (allocateStep_ok hstep).2 with ⟨hcs, img, himg, hset⟩ | ⟨hcs, hset⟩
        · replace hset : s' = _ := hset
          rw [if_pos hcs, hset]
          exact ⟨img, himg, dictGet_dictSet_self _ _ _⟩
        · replace hset : s' = _ := hset
          rw [if_neg hcs, hset]
          exact hinit
      · have hgmem : g ∈ rest.map Prod.fst := List.mem_map_of_mem Prod.fst hmem2
        have hg0ne : ¬ g0 = g := by
          intro hgg
          rw [← hgg] at hgmem
          exact hnd.1 hgmem
        have hinit2 : dictGet s' (secondaryName g) = none := by
          rcases (allocateStep_ok hstep).2 with ⟨hcs, img, himg, hset⟩ | ⟨hcs, hset⟩
          · replace hset : s' = _ := hset
            rw [hset, dictGet_dictSet_ne _ _ _ _
              (fun hKe => hg0ne (secondaryName_inj hKe))]
            exact hinit
          · replace hset : s' = _ := hset
            rw [hset]
            exact hinit
        exact ih p' s' PS h hnd.2 hmem2 hinit2

theorem allocateLoop_prim_get {f : ℚ} {g : String} {c : GroupConfig} :
    ∀ (entries p s : List (String × GroupConfig))
      (PS : List (String × GroupConfig) × List (String × GroupConfig)),
      allocateLoop f entries p s = Except.ok PS →
      (entries.map Prod.fst).Nodup →
      (g, c) ∈ entries →
      dictGet p g = some c →
      dictGet PS.1 g =
        (if 0 < count_primary_of f c.count then
          some { c with count := count_primary_of f c.count } else none) := by
  intro entries
  induction entries with
  | nil => intro p s PS h hnd hmem hinit; cases hmem
  | cons e0 rest ih =>
    intro p s PS h hnd hmem hinit
    rcases e0 with ⟨g0, c0⟩
    rw [allocateLoop] at h
    cases hstep : allocateStep f g0 c0 p s with
    | error e2 => rw [hstep] at h; cases h
    | ok P =>
      rcases P with ⟨p', s'⟩
      rw [hstep] at h
      rw [List.map_cons, List.nodup_cons] at hnd
      have hp := (allocateStep_ok hstep).1
      replace hp : p' = _ := hp
      rcases List.mem_cons.mp hmem with heq | hmem2
      · injection heq with hg0 hc0
        subst hg0
        subst hc0
        have hstable : dictGet PS.1 g = dictGet p' g := by
          apply allocateLoop_prim_stable rest p' s' PS h
          intro e he hKe
          have h1 : e.1 ∈ rest.map Prod.fst := List.mem_map_of_mem Prod.fst he
          rw [hKe] at h1
          exact hnd.1 h1
        rw [hstable]
        by_cases hcp : 0 < count_primary_of f c.count
        · rw [if_pos hcp] at hp
          rw [hp, if_pos hcp]
          exact dictGet_dictSet_self _ _ _
        · rw [if_neg hcp] at hp
          rw [hp, if_neg hcp]
          exact dictGet_dictDel_self _ _
      · have hgmem : g ∈ rest.map Prod.fst := List.mem_map_of_mem Prod.fst hmem2
        have hg0ne : ¬ g0 = g := by
          intro hgg
          rw [← hgg] at hgmem
          exact hnd.1 hgmem
        have hinit2 : dictGet p' g = some c := by
          by_cases hcp : 0 < count_primary_of f c0.count
          · rw [if_pos hcp] at hp
            rw [hp, dictGet_dictSet_ne _ _ _ _ hg0ne]
            exact hinit
          · rw [if_neg hcp] at hp
            rw [hp, dictGet_dictDel_ne _ _ _ hg0ne]
            exact hinit
        exact ih p' s' PS h hnd.2 hmem2 hinit2

theorem dictGet_union_right {V : Type} (a b : List (String × V)) (k : String) (v : V)
    (h : dictGet b k = some v) : dictGet (dictUnion a b) k = some v := by
  rw [dictGet_union, h]

theorem dictGet_union_left {V : Type} (a b : List (String × V)) (k : String)
    (h : dictGet b k = none) : dictGet (dictUnion a b) k = dictGet a k := by
  rw [dictGet_union, h]

theorem count_primary_pos {f : ℚ} {n : Int} (hn : 0 < n) (hf : f < 1) :
    0 < count_primary_of f n := by
  unfold count_primary_of
  rw [Int.lt_ceil]
  have h1 : (0 : ℚ) < (n : ℚ) := by exact_mod_cast hn
  have h2 : (0 : ℚ) < 1 - f := by linarith
  push_cast
  exact mul_pos h1 h2

theorem count_primary_one (n : Int) : count_primary_of 1 n = 0 := by
  simp [count_primary_of]

theorem count_secondary_at_one (g : String) (c : GroupConfig) :
    count_secondary_of 1 g c = c.count := by
  unfold count_secondary_of
  by_cases ht : isTrainingGroup g c
  · rw [if_pos ht, count_primary_one]
    ring
  · rw [if_neg ht]
    simp

theorem allocate_resources_pos_eq {res : Resources} {f : ℚ}
    (hf0 : 0 < f) (hf1 : f ≤ 1) :
    allocate_resources res f =
      (match allocateLoop f res.deployment res.deployment [] with
       | Except.error e => Except.error e
       | Except.ok (primaryD, secondaryD) => allocateMerge res primaryD secondaryD) := by
  rw [allocate_resources, if_neg (not_not_intro ⟨le_of_lt hf0, hf1⟩),
    if_neg (not_le.mpr hf0)]

/-! ### Claim C8: splitter counts -/

/-- C8: the claim that each original group is emitted with primary count
given by the ceiling of n times one minus the fraction fails, because
the final ordering merge deliberately lets the original deployment
override the reduced primary counts.  Amended: every original group
keeps its original configuration (count n) in the emitted document, and
a training group additionally gets a secondary group carrying
n minus the ceiling of n times one minus the fraction when that is
positive (absent otherwise), so emitted primary plus secondary exceeds n
instead of preserving it. -/
theorem splitter_primary_restored (res : Resources) (f : ℚ) (g : String)
    (c : GroupConfig) (out : Resources)
    (hf0 : 0 < f) (hf1 : f ≤ 1)
    (hg : dictGet res.deployment g = some c)
    (hnodup : (res.deployment.map Prod.fst).Nodup)
    (hfresh : dictGet res.deployment (secondaryName g) = none)
    (htrain : isTrainingGroup g c = true)
    (hok : allocate_resources res f = Except.ok out) :
    dictGet out.deployment g = some c ∧
    (dictGet out.deployment (secondaryName g)).map (fun x => x.count) =
      (if 0 < c.count - count_primary_of f c.count
       then some (c.count - count_primary_of f c.count) else none) := by
  rw [allocate_resources_pos_eq hf0 hf1] at hok
  cases hloop : allocateLoop f res.deployment res.deployment [] with
  | error e =>
    rw [hloop] at hok
    cases hok
  | ok P =>
    rcases P with ⟨pd, sd⟩
    rw [hloop] at hok
    replace hok : allocateMerge res pd sd = Except.ok out := hok
    rw [allocateMerge] at hok
    by_cases hany : (dictUnion sd pd).any (fun e => e.2.group.isNone) = true
    · rw [if_pos hany] at hok
      cases hok
    · rw [if_neg hany] at hok
      injection hok with h2
      have hdep : out.deployment = (dictUnion (dictUnion (dictUnion (dictUnion
          ((dictUnion sd pd).filter
            (fun e => e.2.group = some "upload" && decide (0 < e.2.count)))
          ((dictUnion sd pd).filter
            (fun e => e.2.group = some "interactive" && decide (0 < e.2.count))))
          ((dictUnion sd pd).filter
            (fun e => !(pyInStr "training" (e.2.group.getD "")) && decide (0 < e.2.count))))
          (dictUnion sd pd)) res.deployment) := by
        rw [← h2]
      have hpdK : dictGet pd (secondaryName g) = none := by
        have h3 := allocateLoop_prim_stable res.deployment res.deployment [] (pd, sd)
          hloop (dictGet_none_not_key hfresh)
        replace h3 : dictGet pd (secondaryName g) =
          dictGet res.deployment (secondaryName g) := h3
        rw [h3, hfresh]
      have hmodK : dictGet (dictUnion sd pd) (secondaryName g) =
          dictGet sd (secondaryName g) := dictGet_union_left _ _ _ hpdK
      have hsec := allocateLoop_sec_get res.deployment res.deployment [] (pd, sd)
        hloop hnodup (dictGet_mem hg) rfl
      have hcs_eq : count_secondary_of f g c = c.count - count_primary_of f c.count := by
        rw [count_secondary_of, if_pos htrain]
      rw [hcs_eq] at hsec
      constructor
      · rw [hdep, dictGet_union_right _ _ _ _ hg]
      · by_cases hcs : 0 < c.count - count_primary_of f c.count
        · rw [if_pos hcs] at hsec
          rcases hsec with ⟨img, himg, hsd⟩
          replace hsd : dictGet sd (secondaryName g) =
            some { c with count := c.count - count_primary_of f c.count,
                          image := some img, secondary_htcondor_cluster := true } := hsd
          have hmod2 : dictGet (dictUnion sd pd) (secondaryName g) =
              some { c with count := c.count - count_primary_of f c.count,
                            image := some img, secondary_htcondor_cluster := true } := by
            rw [hmodK, hsd]
          rw [hdep, dictGet_union_left _ _ _ hfresh, dictGet_union_right _ _ _ _ hmod2,
            if_pos hcs]
          rfl
        · rw [if_neg hcs] at hsec
          replace hsec : dictGet sd (secondaryName g) = none := hsec
          have hmodnone : dictGet (dictUnion sd pd) (secondaryName g) = none := by
            rw [hmodK, hsec]
          rw [hdep, dictGet_union_left _ _ _ hfresh,
            dictGet_union_left _ _ _ hmodnone,
            dictGet_union_left _ _ _ (dictGet_filter_none _ hmodnone),
            dictGet_union_left _ _ _ (dictGet_filter_none _ hmodnone),
            dictGet_filter_none _ hmodnone, if_neg hcs]
          rfl

/-! ### Claim C10: missing group key -/

/-- C10: the claim that any deployment entry without a group key makes
allocate_resources raise KeyError fails for entries whose count is zero,
because both their primary and secondary counts vanish and the entry
never reaches the ordering merge.  Amended: for every fraction in the
left-open unit interval, an entry with positive count and no group key
forces KeyError (either directly through the ordering merge reading the
group key of every surviving entry, or through the IMAGE_MAPPING lookup
that is the only other KeyError source of the loop). -/
theorem splitter_missing_group_keyError (res : Resources) (f : ℚ) (g : String)
    (c : GroupConfig)
    (hf0 : 0 < f) (hf1 : f ≤ 1)
    (hg : dictGet res.deployment g = some c)
    (hgroup : c.group = none) (hcount : 0 < c.count)
    (hnodup : (res.deployment.map Prod.fst).Nodup)
    (hfresh : dictGet res.deployment (secondaryName g) = none) :
    allocate_resources res f = Except.error PyErr.keyError := by
  rw [allocate_resources_pos_eq hf0 hf1]
  cases hloop : allocateLoop f res.deployment res.deployment [] with
  | error e =>
    rw [allocateLoop_error res.deployment res.deployment [] e hloop]
  | ok P =>
    rcases P with ⟨pd, sd⟩
    have hmem : ∃ k v, dictGet (dictUnion sd pd) k = some v ∧ v.group = none := by
      rcases lt_or_eq_of_le hf1 with hflt | hfeq
      · have hcp : 0 < count_primary_of f c.count := count_primary_pos hcount hflt
        have hpg := allocateLoop_prim_get res.deployment res.deployment [] (pd, sd)
          hloop hnodup (dictGet_mem hg) hg
        rw [if_pos hcp] at hpg
        replace hpg : dictGet pd g =
          some { c with count := count_primary_of f c.count } := hpg
        exact ⟨g, { c with count := count_primary_of f c.count },
          dictGet_union_right _ _ _ _ hpg, hgroup⟩
      · subst hfeq
        have hcs : 0 < count_secondary_of 1 g c := by
          rw [count_secondary_at_one]
          exact hcount
        have hsec := allocateLoop_sec_get res.deployment res.deployment [] (pd, sd)
          hloop hnodup (dictGet_mem hg) rfl
        rw [if_pos hcs] at hsec
        rcases hsec with ⟨img, himg, hsd⟩
        replace hsd : dictGet sd (secondaryName g) =
          some { c with count := count_secondary_of 1 g c, image := some img,
                        secondary_htcondor_cluster := true } := hsd
        have hpdK : dictGet pd (secondaryName g) = none := by
          have h3 := allocateLoop_prim_stable res.deployment res.deployment [] (pd, sd)
            hloop (dictGet_none_not_key hfresh)
          replace h3 : dictGet pd (secondaryName g) =
            dictGet res.deployment (secondaryName g) := h3
          rw [h3, hfresh]
        refine ⟨secondaryName g,
          { c with count := count_secondary_of 1 g c, image := some img,
                   secondary_htcondor_cluster := true }, ?_, hgroup⟩
        rw [dictGet_union_left _ _ _ hpdK, hsd]
    rcases hmem with ⟨k, v, hget, hvg⟩
    have hany : (dictUnion sd pd).any (fun e => e.2.group.isNone) = true := by
      rw [List.any_eq_true]
      refine ⟨(k, v), dictGet_mem hget, ?_⟩
      show v.group.isNone = true
      rw [hvg]
      rfl
    show allocateMerge res pd sd = Except.error PyErr.keyError
    rw [allocateMerge, if_pos hany]

/-! ### Concrete splitter evaluations at fraction one half -/

theorem cpHalfTwo : count_primary_of halfQ 2 = 1 := by
  rw [count_primary_of, show ((2 : Int) : ℚ) * (1 - halfQ) = 1 by norm_num [halfQ]]
  norm_num

theorem cpHalfZero : count_primary_of halfQ 0 = 0 := by
  rw [count_primary_of, show ((0 : Int) : ℚ) * (1 - halfQ) = 0 by norm_num [halfQ]]
  norm_num

theorem csHalfCompute : count_secondary_of halfQ "compute"
    { count := 2, flavor := "m1.small", group := some "compute" } = 1 := by
  rw [count_secondary_of, if_neg (by decide)]
  show (⌈(2 : ℚ) * halfQ⌉ : Int) = 1
  rw [show (2 : ℚ) * halfQ = 1 by norm_num [halfQ]]
  norm_num

theorem csHalfTraining : count_secondary_of halfQ "training-a"
    { count := 2, flavor := "m1.small", group := some "training" } = 1 := by
  rw [count_secondary_of, if_pos (by decide), cpHalfTwo]
  decide

theorem csHalfZeroA : count_secondary_of halfQ "a" { count := 0 } = 0 := by
  rw [count_secondary_of, if_neg (by decide)]
  show (⌈(0 : ℚ) * halfQ⌉ : Int) = 0
  rw [show (0 : ℚ) * halfQ = 0 by norm_num]
  norm_num

theorem loopC8 : allocateLoop halfQ resC8.deployment resC8.deployment [] =
    Except.ok
      ([("compute", { count := 1, flavor := "m1.small", group := some "compute" }),
        ("training-a", { count := 1, flavor := "m1.small", group := some "training" })],
       [("compute-htcondor-secondary",
         { count := 1, flavor := "m1.small", group := some "compute",
           image := some "htcondor-secondary", secondary_htcondor_cluster := true }),
        ("training-a-htcondor-secondary",
         { count := 1, flavor := "m1.small", group := some "training",
           image := some "htcondor-secondary", secondary_htcondor_cluster := true })]) := by
  have hstep1 : allocateStep halfQ "compute"
      { count := 2, flavor := "m1.small", group := some "compute" }
      resC8.deployment [] =
      Except.ok
        ([("compute", { count := 1, flavor := "m1.small", group := some "compute" }),
          ("training-a", { count := 2, flavor := "m1.small", group := some "training" })],
         [("compute-htcondor-secondary",
           { count := 1, flavor := "m1.small", group := some "compute",
             image := some "htcondor-secondary", secondary_htcondor_cluster := true })]) := by
    simp only [allocateStep, cpHalfTwo, csHalfCompute]
    decide
  have hstep2 : allocateStep halfQ "training-a"
      { count := 2, flavor := "m1.small", group := some "training" }
      [("compute", { count := 1, flavor := "m1.small", group := some "compute" }),
       ("training-a", { count := 2, flavor := "m1.small", group := some "training" })]
      [("compute-htcondor-secondary",
        { count := 1, flavor := "m1.small", group := some "compute",
          image := some "htcondor-secondary", secondary_htcondor_cluster := true })] =
      Except.ok
        ([("compute", { count := 1, flavor := "m1.small", group := some "compute" }),
          ("training-a", { count := 1, flavor := "m1.small", group := some "training" })],
         [("compute-htcondor-secondary",
           { count := 1, flavor := "m1.small", group := some "compute",
             image := some "htcondor-secondary", secondary_htcondor_cluster := true }),
          ("training-a-htcondor-secondary",
           { count := 1, flavor := "m1.small", group := some "training",
             image := some "htcondor-secondary", secondary_htcondor_cluster := true })]) := by
    simp only [allocateStep, cpHalfTwo, csHalfTraining]
    decide
  show allocateLoop halfQ
    (("compute", { count := 2, flavor := "m1.small", group := some "compute" }) ::
      ("training-a", { count := 2, flavor := "m1.small", group := some "training" }) :: [])
    resC8.deployment [] = _
  simp only [allocateLoop, hstep1, hstep2]

theorem loopC8w : allocateLoop halfQ resC8w.deployment resC8w.deployment [] =
    Except.ok
      ([("training-a", { count := 1, flavor := "m1.small", group := some "training" })],
       [("training-a-htcondor-secondary",
         { count := 1, flavor := "m1.small", group := some "training",
           image := some "htcondor-secondary", secondary_htcondor_cluster := true })]) := by
  have hstep : allocateStep halfQ "training-a"
      { count := 2, flavor := "m1.small", group := some "training" }
      resC8w.deployment [] =
      Except.ok
        ([("training-a", { count := 1, flavor := "m1.small", group := some "training" })],
         [("training-a-htcondor-secondary",
           { count := 1, flavor := "m1.small", group := some "training",
             image := some "htcondor-secondary", secondary_htcondor_cluster := true })]) := by
    simp only [allocateStep, cpHalfTwo, csHalfTraining]
    decide
  show allocateLoop halfQ
    (("training-a", { count := 2, flavor := "m1.small", group := some "training" }) :: [])
    resC8w.deployment [] = _
  simp only [allocateLoop, hstep]

theorem allocC8w : allocate_resources resC8w halfQ = Except.ok outC8w := by
  rw [allocate_resources_pos_eq (by norm_num [halfQ]) (by norm_num [halfQ]), loopC8w]
  decide

/-- C8 counterexample: at fraction one half on resC8 the emitted compute
count is 2, not the claimed ceiling 1 (the final merge restores the
original deployment), and the training group is emitted with primary 2
and secondary 1, so primary plus secondary is 3, not the original 2. -/
theorem splitter_counts_counter :
    ((0 : ℚ) < halfQ ∧ halfQ ≤ 1) ∧
    emittedCount resC8 halfQ "compute" = some 2 ∧
    count_primary_of halfQ 2 = 1 ∧
    emittedCount resC8 halfQ "training-a" = some 2 ∧
    emittedCount resC8 halfQ "training-a-htcondor-secondary" = some 1 ∧
    ¬((2 : Int) = 1) ∧ ¬((2 : Int) + 1 = 2) := by
  have hform : allocate_resources resC8 halfQ =
      allocateMerge resC8
        [("compute", { count := 1, flavor := "m1.small", group := some "compute" }),
         ("training-a", { count := 1, flavor := "m1.small", group := some "training" })]
        [("compute-htcondor-secondary",
          { count := 1, flavor := "m1.small", group := some "compute",
            image := some "htcondor-secondary", secondary_htcondor_cluster := true }),
         ("training-a-htcondor-secondary",
          { count := 1, flavor := "m1.small", group := some "training",
            image := some "htcondor-secondary", secondary_htcondor_cluster := true })] := by
    rw [allocate_resources_pos_eq (by norm_num [halfQ]) (by norm_num [halfQ]), loopC8]
  refine ⟨⟨by norm_num [halfQ], by norm_num [halfQ]⟩, ?_, cpHalfTwo, ?_, ?_, by decide,
    by decide⟩
  · unfold emittedCount
    rw [hform]
    decide
  · unfold emittedCount
    rw [hform]
    decide
  · unfold emittedCount
    rw [hform]
    decide

theorem splitter_primary_restored_witness :
    dictGet outC8w.deployment "training-a" =
      some { count := 2, flavor := "m1.small", group := some "training" } ∧
    (dictGet outC8w.deployment (secondaryName "training-a")).map (fun x => x.count) =
      (if 0 < (2 : Int) - count_primary_of halfQ 2
       then some ((2 : Int) - count_primary_of halfQ 2) else none) :=
  splitter_primary_restored resC8w halfQ "training-a"
    { count := 2, flavor := "m1.small", group := some "training" } outC8w
    (by norm_num [halfQ]) (by norm_num [halfQ]) (by decide) (by decide) (by decide)
    (by decide) allocC8w

/-- C10 counterexample: the entry of resC10 has no group key, the
fraction one half lies in the claimed interval, and yet allocate
succeeds, returning the document unchanged: a zero count makes both the
primary and the secondary entry vanish before the merge reads any group
key. -/
theorem splitter_zero_count_counter :
    ((0 : ℚ) < halfQ ∧ halfQ ≤ 1) ∧
    (dictGet resC10.deployment "a").map (fun c => c.group) = some none ∧
    allocate_resources resC10 halfQ = Except.ok resC10 := by
  have hstep : allocateStep halfQ "a" { count := 0 } resC10.deployment [] =
      Except.ok ([], []) := by
    simp only [allocateStep, cpHalfZero, csHalfZeroA]
    decide
  have hloop : allocateLoop halfQ resC10.deployment resC10.deployment [] =
      Except.ok ([], []) := by
    show allocateLoop halfQ (("a", { count := 0 }) :: []) resC10.deployment [] = _
    simp only [allocateLoop, hstep]
  refine ⟨⟨by norm_num [halfQ], by norm_num [halfQ]⟩, by decide, ?_⟩
  rw [allocate_resources_pos_eq (by norm_num [halfQ]) (by norm_num [halfQ]), hloop]
  decide

theorem splitter_missing_group_keyError_witness :
    allocate_resources resC10w halfQ = Except.error PyErr.keyError :=
  splitter_missing_group_keyError resC10w halfQ "b" { count := 1 }
    (by norm_num [halfQ]) (by norm_num [halfQ]) (by decide) rfl (by decide) (by decide)
    (by decide)

/-! ### Shared lemmas for the validator pipeline -/

theorem mem_dedupAux {α : Type} [DecidableEq α] :
    ∀ (l seen : List α) (x : α), x ∈ dedupAux l seen ↔ x ∈ l ∧ x ∉ seen := by
  intro l
  induction l with
  | nil => intro seen x; simp [dedupAux]
  | cons y rest ih =>
    intro seen x
    by_cases hy : y ∈ seen
    · rw [dedupAux, if_pos hy, ih]
      constructor
      · intro ⟨h1, h2⟩
        exact ⟨List.mem_cons_of_mem _ h1, h2⟩
      · intro ⟨h1, h2⟩
        rcases List.mem_cons.mp h1 with h3 | h3
        · subst h3
          exact absurd hy h2
        · exact ⟨h3, h2⟩
    · rw [dedupAux, if_neg hy]
      constructor
      · intro h1
        rcases List.mem_cons.mp h1 with h3 | h3
        · subst h3
          exact ⟨List.mem_cons_self _ _, hy⟩
        · rcases (ih (y :: seen) x).mp h3 with ⟨h4, h5⟩
          refine ⟨List.mem_cons_of_mem _ h4, fun h6 => h5 (List.mem_cons_of_mem _ h6)⟩
      · intro ⟨h1, h2⟩
        rcases List.mem_cons.mp h1 with h3 | h3
        · subst h3
          exact List.mem_cons_self _ _
        · by_cases hxy : x = y
          · subst hxy
            exact List.mem_cons_self _ _
          · exact List.mem_cons_of_mem _ ((ih (y :: seen) x).mpr
              ⟨h3, fun h6 => by
                rcases List.mem_cons.mp h6 with h7 | h7
                · exact hxy h7
                · exact h2 h7⟩)

theorem mem_dedupFirst {α : Type} [DecidableEq α] (l : List α) (x : α) :
    x ∈ dedupFirst l ↔ x ∈ l := by
  rw [dedupFirst, mem_dedupAux]
  simp

theorem mapE_ok_forall2 {A B : Type} (f : A → Except PyErr B) :
    ∀ (l : List A) (out : List B), mapE f l = Except.ok out →
      List.Forall₂ (fun a b => f a = Except.ok b) l out := by
  intro l
  induction l with
  | nil =>
    intro out h
    injection h with h2
    subst h2
    exact List.Forall₂.nil
  | cons a rest ih =>
    intro out h
    rw [mapE] at h
    cases hfa : f a with
    | error e => rw [hfa] at h; cases h
    | ok b =>
      rw [hfa] at h
      cases hrest : mapE f rest with
      | error e => rw [hrest] at h; cases h
      | ok bs =>
        rw [hrest] at h
        injection h with h2
        subst h2
        exact List.Forall₂.cons hfa (ih bs hrest)

theorem mapE_eq_map {A B : Type} (f : A → Except PyErr B) (g : A → B) :
    ∀ (l : List A) (out : List B), mapE f l = Except.ok out →
      (∀ a b, f a = Except.ok b → b = g a) → out = l.map g := by
  intro l
  induction l with
  | nil =>
    intro out h _
    injection h with h2
    subst h2
    rfl
  | cons a rest ih =>
    intro out h hfg
    rw [mapE] at h
    cases hfa : f a with
    | error e => rw [hfa] at h; cases h
    | ok b =>
      rw [hfa] at h
      cases hrest : mapE f rest with
      | error e => rw [hrest] at h; cases h
      | ok bs =>
        rw [hrest] at h
        injection h with h2
        subst h2
        rw [List.map_cons, ← ih bs hrest hfg, hfg a b hfa]

theorem buildRows_ok_shape {res : Resources} {rows : List CRow}
    (h : buildRows res = Except.ok rows) : rows = res.deployment.map (rowOf res) := by
  apply mapE_eq_map _ _ _ _ h
  intro e r he
  cases hinv : dictGet res.nodes_inventory e.2.flavor with
  | none =>
    rw [buildRows] at h
    rw [hinv] at he
    cases he
  | some m =>
    rw [hinv] at he
    injection he with h2
    subst h2
    rw [rowOf, hinv]
    rfl

theorem filter_map_comm {A B : Type} (f : A → B) (p : B → Bool) :
    ∀ l : List A, (l.map f).filter p = (l.filter (fun x => p (f x))).map f := by
  intro l
  induction l with
  | nil => rfl
  | cons a rest ih =>
    rw [List.map_cons, List.filter_cons, List.filter_cons]
    cases hp : p (f a)
    · rw [if_neg (by simp [hp]), if_neg (by simp [hp]), ih]
    · rw [if_pos (by simp [hp]), if_pos (by simp [hp]), List.map_cons, ih]

theorem nodup_dateRange (a b : Int) : (dateRange a b).Nodup := by
  apply List.Nodup.map
  · intro i j hij
    dsimp at hij
    omega
  · exact List.nodup_range _

theorem mem_dateRange {a b d : Int} : d ∈ dateRange a b ↔ a ≤ d ∧ d ≤ b := by
  unfold dateRange
  rw [List.mem_map]
  constructor
  · intro ⟨i, hi, hd⟩
    rw [List.mem_range] at hi
    omega
  · intro ⟨h1, h2⟩
    refine ⟨(d - a).toNat, ?_, by omega⟩
    rw [List.mem_range]
    omega

theorem filter_eq_of_nodup {α : Type} [DecidableEq α] (d : α) :
    ∀ l : List α, l.Nodup → l.filter (fun x => decide (x = d)) =
      (if d ∈ l then [d] else []) := by
  intro l
  induction l with
  | nil => intro _; rfl
  | cons y rest ih =>
    intro hnd
    rw [List.nodup_cons] at hnd
    rw [List.filter_cons]
    by_cases hy : y = d
    · subst hy
      rw [if_pos (by simp), ih hnd.2, if_neg hnd.1, if_pos (List.mem_cons_self _ _)]
    · rw [if_neg (by simp [hy]), ih hnd.2]
      by_cases hd : d ∈ rest
      · rw [if_pos hd, if_pos (List.mem_cons_of_mem _ hd)]
      · rw [if_neg hd, if_neg (by
          intro h
          rcases List.mem_cons.mp h with h2 | h2
          · exact hy h2.symm
          · exact hd h2)]

theorem groupSum_append (l1 l2 : List (CRow × Int)) (k : String × Int) :
    groupSum (l1 ++ l2) k = groupSum l1 k + groupSum l2 k := by
  unfold groupSum
  rw [List.filter_append, List.map_append, List.sum_append]

theorem groupSum_zero_of_not_mem {k : String × Int} :
    ∀ {ps : List (CRow × Int)}, k ∉ ps.map keyOf → groupSum ps k = 0 := by
  intro ps
  induction ps with
  | nil => intro _; rfl
  | cons p rest ih =>
    intro h
    rw [List.map_cons] at h
    have h1 : ¬ keyOf p = k := by
      intro he
      apply h
      rw [← he]
      exact List.mem_cons_self _ _
    have h2 : k ∉ rest.map keyOf := fun hm => h (List.mem_cons_of_mem _ hm)
    unfold groupSum at ih ⊢
    rw [List.filter_cons, if_neg (by simpa using h1)]
    exact ih h2

theorem explode_fst {r : CRow} {ep : List (CRow × Int)}
    (h : explodeRow r = Except.ok ep) : ∀ p ∈ ep, p.1 = r := by
  simp only [explodeRow] at h
  cases hs : r.startD with
  | none => rw [hs] at h; cases h
  | some a =>
    rw [hs] at h
    cases he : r.endD with
    | none => rw [he] at h; cases h
    | some b =>
      rw [he] at h
      injection h with h2
      subst h2
      intro p hp
      rcases List.mem_map.mp hp with ⟨x, _, hx⟩
      rw [← hx]

theorem flatten_fst {tr : List CRow} {eps : List (List (CRow × Int))}
    (h : List.Forall₂ (fun r ep => explodeRow r = Except.ok ep) tr eps) :
    ∀ p ∈ eps.flatten, p.1 ∈ tr := by
  induction h with
  | nil =>
    intro p hp
    simp at hp
  | cons h1 h2 ih =>
    intro p hp
    rw [List.flatten_cons, List.mem_append] at hp
    rcases hp with hp | hp
    · rw [explode_fst h1 p hp]
      exact List.mem_cons_self _ _
    · exact List.mem_cons_of_mem _ (ih p hp)

theorem explode_groupSum {r : CRow} {ep : List (CRow × Int)} {fl : String} {d : Int}
    (h : explodeRow r = Except.ok ep) :
    groupSum ep (fl, d) = rowContrib fl d r := by
  simp only [explodeRow] at h
  cases hs : r.startD with
  | none => rw [hs] at h; cases h
  | some a =>
    rw [hs] at h
    cases he : r.endD with
    | none => rw [he] at h; cases h
    | some b =>
      rw [he] at h
      injection h with h2
      subst h2
      unfold groupSum rowContrib
      rw [filter_map_comm]
      by_cases hfl : r.flavor = fl
      · have hcong : ((dateRange a b).filter
            (fun x => decide (keyOf ((fun d2 => (r, d2)) x) = (fl, d)))) =
            ((dateRange a b).filter (fun x => decide (x = d))) := by
          apply List.filter_congr
          intro x _
          simp [keyOf, Prod.ext_iff, hfl]
        rw [hcong, filter_eq_of_nodup d _ (nodup_dateRange a b)]
        by_cases hmem : d ∈ dateRange a b
        · rw [if_pos hmem]
          have hcov : coversDay r d = true := by
            simp only [coversDay, hs, he]
            exact decide_eq_true (mem_dateRange.mp hmem)
          simp [hfl, hcov]
        · rw [if_neg hmem]
          have hcov : coversDay r d = false := by
            simp only [coversDay, hs, he]
            exact decide_eq_false (fun hc => hmem (mem_dateRange.mpr hc))
          simp [hfl, hcov]
      · have hcong : ((dateRange a b).filter
            (fun x => decide (keyOf ((fun d2 => (r, d2)) x) = (fl, d)))) = [] := by
          rw [List.filter_eq_nil_iff]
          intro x _
          simp [keyOf, Prod.ext_iff, hfl]
        rw [hcong]
        simp [hfl]

theorem sum_over_explode {fl : String} {d : Int} {tr : List CRow}
    {eps : List (List (CRow × Int))}
    (h : List.Forall₂ (fun r ep => explodeRow r = Except.ok ep) tr eps) :
    groupSum eps.flatten (fl, d) = (tr.map (rowContrib fl d)).sum := by
  induction h with
  | nil => rfl
  | cons h1 h2 ih =>
    rw [List.flatten_cons, groupSum_append, explode_groupSum h1, List.map_cons,
      List.sum_cons, ih]

theorem sum_filter_if {A : Type} (p q : A → Bool) (f : A → Int) :
    ∀ l : List A, ((l.filter p).map (fun x => if q x then f x else 0)).sum =
      ((l.filter (fun x => p x && q x)).map f).sum := by
  intro l
  induction l with
  | nil => rfl
  | cons x rest ih =>
    rw [List.filter_cons, List.filter_cons]
    cases hp : p x
    · rw [if_neg (by simp [hp]), if_neg (by simp [hp]), ih]
    · rw [if_pos (by simp [hp])]
      cases hq : q x
      · rw [if_neg (by simp [hp, hq]), List.map_cons, List.sum_cons,
          if_neg (by simp [hq]), ih]
        simp
      · rw [if_pos (by simp [hp, hq]), List.map_cons, List.map_cons, List.sum_cons,
          List.sum_cons, if_pos (by simp [hq]), ih]

theorem firstMax_eq {res : Resources} {eps : List (List (CRow × Int))}
    {m : Int} {fl : String} {d : Int}
    (hm : dictGet res.nodes_inventory fl = some m)
    (hf2 : List.Forall₂ (fun r ep => explodeRow r = Except.ok ep)
      ((res.deployment.map (rowOf res)).filter
        (fun r => pyStartsWith "training-" r.node)) eps)
    (hkey : (fl, d) ∈ (eps.flatten).map keyOf) :
    groupFirstMax eps.flatten (fl, d) = m := by
  rcases List.mem_map.mp hkey with ⟨p, hp, hkp⟩
  have hsome : ((eps.flatten).find? (fun p => decide (keyOf p = (fl, d)))).isSome := by
    rw [List.find?_isSome]
    exact ⟨p, hp, by simp [hkp]⟩
  rcases Option.isSome_iff_exists.mp hsome with ⟨q, hq⟩
  have hqmem := List.mem_of_find?_eq_some hq
  have hqpred := List.find?_some hq
  have hqkey : keyOf q = (fl, d) := of_decide_eq_true hqpred
  have hq1 : q.1 ∈ (res.deployment.map (rowOf res)).filter
      (fun r => pyStartsWith "training-" r.node) := flatten_fst hf2 q hqmem
  rw [filter_map_comm] at hq1
  rcases List.mem_map.mp hq1 with ⟨e, _, hqe⟩
  have hfl : q.1.flavor = fl := congrArg Prod.fst hqkey
  rw [groupFirstMax, hq]
  show q.1.max_count = m
  rw [← hqe]
  show (dictGet res.nodes_inventory e.2.flavor).getD 0 = m
  have hefl : e.2.flavor = fl := by
    rw [← hqe] at hfl
    exact hfl
  rw [hefl, hm]
  rfl

/-! ### Claim C1: the capacity validator -/

/-- C1 counterexample: on the S3 document (inventory 2, undated compute
count 2, training count 1 on days 10 through 12) the validator reports
no dated conflict at all and accepts the document, although the undated
base plus the dated demand exceeds the inventory on day 10: the code
never adds the undated base into the per-day sums. -/
theorem check_conflicts_S3_counter :
    check_conflicts resS3 = Except.ok true ∧
    trainingConflicts resS3 = Except.ok [] ∧
    dictGet resS3.nodes_inventory "m1.small" = some 2 ∧
    2 < baseUndatedSum resS3 "m1.small" + datedTrainingSum resS3 "m1.small" 10 := by
  decide

theorem trainingConflicts_eq {res : Resources} {rows : List CRow}
    (hrows : buildRows res = Except.ok rows) :
    trainingConflicts res =
      (match mapE explodeRow (rows.filter (fun r => pyStartsWith "training-" r.node)) with
       | Except.error e => Except.error e
       | Except.ok eps =>
         Except.ok ((dedupFirst ((eps.flatten).map keyOf)).filter
           (fun k => decide (groupFirstMax eps.flatten k < groupSum eps.flatten k)))) := by
  rw [trainingConflicts, hrows]

/-- C1 amended: a dated conflict on (flavor, day) is reported exactly
when the sum of the counts of the training groups of that flavor whose
window contains the day exceeds the inventory of the flavor; the undated
base demand is not added (it is checked separately, per flavor only). -/
theorem trainingConflicts_iff (res : Resources) (fl : String) (d : Int) (m : Int)
    (tc : List (String × Int))
    (hm : dictGet res.nodes_inventory fl = some m) (hm0 : 0 ≤ m)
    (hok : trainingConflicts res = Except.ok tc) :
    (fl, d) ∈ tc ↔ m < datedTrainingSum res fl d := by
  cases hrows : buildRows res with
  | error e => rw [trainingConflicts, hrows] at hok; cases hok
  | ok rows =>
    rw [trainingConflicts_eq hrows] at hok
    cases hexp : mapE explodeRow
        (rows.filter (fun r => pyStartsWith "training-" r.node)) with
    | error e => rw [hexp] at hok; cases hok
    | ok eps =>
      rw [hexp] at hok
      injection hok with h2
      subst h2
      have hsh := buildRows_ok_shape hrows
      have hf2 := mapE_ok_forall2 explodeRow _ _ hexp
      rw [hsh] at hf2
      have hsum : groupSum eps.flatten (fl, d) = datedTrainingSum res fl d := by
        rw [sum_over_explode hf2, filter_map_comm, List.map_map]
        exact sum_filter_if (fun x => pyStartsWith "training-" (rowOf res x).node)
          (fun x => decide ((rowOf res x).flavor = fl) && coversDay (rowOf res x) d)
          (fun x => (rowOf res x).count) res.deployment
      constructor
      · intro hmem
        rw [List.mem_filter] at hmem
        rcases hmem with ⟨hkey, hpred⟩
        rw [mem_dedupFirst] at hkey
        have hlt := of_decide_eq_true hpred
        rw [firstMax_eq hm hf2 hkey, hsum] at hlt
        exact hlt
      · intro hlt
        have hkey : (fl, d) ∈ (eps.flatten).map keyOf := by
          by_contra hnk
          rw [← hsum, groupSum_zero_of_not_mem hnk] at hlt
          omega
        rw [List.mem_filter, mem_dedupFirst]
        refine ⟨hkey, ?_⟩
        apply decide_eq_true
        rw [firstMax_eq hm hf2 hkey, hsum]
        exact hlt

theorem trainingConflicts_iff_witness :
    (("m1.small", (10 : Int)) ∈ ([] : List (String × Int))) ↔
      2 < datedTrainingSum resS3 "m1.small" 10 :=
  trainingConflicts_iff resS3 "m1.small" 10 2 [] (by decide) (by decide) (by decide)
